import Mathlib

/-!
# Shallow embedding of the Shipi18n Next.js example client

This file embeds the API client wrapper (`src/lib/shipi18n.js`) and the
proxy route handler (`src/app/api/translate/route.js`) of the
Shipi18n Next.js example repository, and proves the specified properties
about them.

JavaScript values flowing through the client are modelled by the `Json`
inductive below.  A JS `undefined` is modelled as `Option.none` wherever it
can occur (missing object fields, missing destructured parameters): in this
codebase a key whose value is `undefined` is observationally equal to an
absent key (destructuring defaults, truthiness tests and `JSON.stringify`
treat the two identically), so object fields are `List (String × Json)`
and field access returns `Option Json`.

The HTTP transport (`fetch`) is a parameter: a function from the request
the code builds to the response it observes.  Every operation returns,
besides its result, the list of requests it issued, so that "zero network
calls" and "exactly one POST" are provable statements.
-/

namespace Shipi18n

/-- JavaScript/JSON values (numbers restricted to integers; every numeric
literal in the repository and its spec is an integer). -/
inductive Json where
  | null : Json
  | bool (b : Bool) : Json
  | num (n : Int) : Json
  | str (s : String) : Json
  | arr (xs : List Json) : Json
  | obj (kvs : List (String × Json)) : Json
  deriving Repr

/-- JS truthiness of a value (`!x` in the source negates this). -/
def truthy : Json → Bool
  | .null => false
  | .bool b => b
  | .num n => n != 0
  | .str s => s != ""
  | .arr _ => true
  | .obj _ => true

/-- Truthiness of a possibly-`undefined` value (`undefined` is falsy). -/
def optTruthy : Option Json → Bool
  | none => false
  | some j => truthy j

/-- JS property access `v[k]` for the object case; on non-objects every
property the repository reads is `undefined`.  (Property access on
`null`/`undefined` throws in JS; no claim reaches that case.) -/
def jsGet : Json → String → Option Json
  | .obj kvs, k => kvs.lookup k
  | _, _ => none

/-- The value of `v.length`: arrays and strings have a numeric length,
objects may carry an explicit `length` field, everything else gives
`undefined`. -/
def jsLengthVal : Json → Option Json
  | .arr xs => some (.num xs.length)
  | .str s => some (.num s.length)
  | .obj kvs => kvs.lookup "length"
  | _ => none

/-- Value of `v?.length` on a possibly-`undefined` value: nullish values give
`undefined` without throwing. -/
def optChainLength : Option Json → Option Json
  | none => none
  | some .null => none
  | some j => jsLengthVal j

mutual
/-- JS `String()` conversion, used by `new Error(x)` when `x` is not a
string.  Array conversion joins the elements with `","`, rendering `null`
elements as the empty string. -/
def jsString : Json → String
  | .null => "null"
  | .bool b => if b then "true" else "false"
  | .num n => toString n
  | .str s => s
  | .obj _ => "[object Object]"
  | .arr xs => String.intercalate "," (jsStringElems xs)

/-- The `String()` conversion of the elements of an array (`null` renders as
the empty string there). -/
def jsStringElems : List Json → List String
  | [] => []
  | .null :: rest => "" :: jsStringElems rest
  | j :: rest => jsString j :: jsStringElems rest
end

/-- Escape one character as inside a JSON string literal
(`JSON.stringify` semantics). -/
def jsonEscapeChar (c : Char) : String :=
  if c = '"' then "\\\""
  else if c = '\\' then "\\\\"
  else if c = '\n' then "\\n"
  else if c = '\t' then "\\t"
  else if c = '\r' then "\\r"
  else if c = '\x08' then "\\b"
  else if c = '\x0c' then "\\f"
  else if c.toNat < 32 then
    "\\u00" ++ String.mk [Nat.digitChar (c.toNat / 16), Nat.digitChar (c.toNat % 16)]
  else String.singleton c

/-- A JSON string literal for `s`, as produced by `JSON.stringify`. -/
def jsonQuote (s : String) : String :=
  "\"" ++ String.join (s.data.map jsonEscapeChar) ++ "\""

mutual
/-- Embedding of `JSON.stringify` on the `Json` values of this model. -/
def jsonStringify : Json → String
  | .null => "null"
  | .bool b => if b then "true" else "false"
  | .num n => toString n
  | .str s => jsonQuote s
  | .arr xs => "[" ++ String.intercalate "," (stringifyElems xs) ++ "]"
  | .obj kvs => "\x7b" ++ String.intercalate "," (stringifyFields kvs) ++ "\x7d"

/-- Serialized elements of a JSON array. -/
def stringifyElems : List Json → List String
  | [] => []
  | j :: rest => jsonStringify j :: stringifyElems rest

/-- Serialized `key:value` fields of a JSON object. -/
def stringifyFields : List (String × Json) → List String
  | [] => []
  | (k, v) :: rest => (jsonQuote k ++ ":" ++ jsonStringify v) :: stringifyFields rest
end

/-- A JS object literal whose fields may be `undefined` (`none`): a key
with an `undefined` value is observationally absent in this codebase
(destructuring defaults, truthiness and `JSON.stringify` agree), so it is
dropped. -/
def objOf (fields : List (String × Option Json)) : Json :=
  .obj (fields.filterMap fun kv => kv.2.map fun v => (kv.1, v))

/-- JS property assignment `o[k] = v` on an object represented as an
ordered field list: an existing key keeps its position and gets the new
value, a new key is appended. -/
def setKey (kvs : List (String × Json)) (k : String) (v : Json) : List (String × Json) :=
  if kvs.any (fun kv => kv.1 == k) then
    kvs.map fun kv => if kv.1 == k then (k, v) else kv
  else kvs ++ [(k, v)]

/-- The list a `for (const x of v)` loop iterates over: arrays iterate
their elements, strings their characters; other values are not iterable
(the loop throws). -/
def jsIterate : Json → Option (List Json)
  | .arr xs => some xs
  | .str s => some (s.data.map fun c => .str (String.singleton c))
  | _ => none

/-!
## Configuration (`src/lib/shipi18n.js`, lines 8–44)

`testConfig` is the module's only mutable state; it is threaded
explicitly as `ClientState`.  `process.env` and the presence of the
browser global `window` are modelled by `Env`.
-/

/-- A resolved configuration `{apiKey, apiUrl}`.  `apiKey` is `none` when
the environment variable is unset (`undefined`). -/
structure Config where
  apiKey : Option String
  apiUrl : String
  deriving Repr, DecidableEq

/-- The module-level mutable state: the `testConfig` override. -/
structure ClientState where
  testConfig : Option Config
  deriving Repr, DecidableEq

/-- Ambient process environment and execution context. -/
structure Env where
  hasWindow : Bool
  SHIPI18N_API_KEY : Option String
  SHIPI18N_API_URL : Option String
  NEXT_PUBLIC_SHIPI18N_API_KEY : Option String
  NEXT_PUBLIC_SHIPI18N_API_URL : Option String
  deriving Repr, DecidableEq

/-- The function `setConfig(newConfig)`: replace the override. -/
def setConfig (newConfig : Config) (_st : ClientState) : ClientState :=
  { testConfig := some newConfig }

/-- The function `resetConfig()`: clear the override. -/
def resetConfig (_st : ClientState) : ClientState :=
  { testConfig := none }

/-- The hard-coded default API URL. -/
def defaultApiUrl : String :=
  "https://x9527l3blg.execute-api.us-east-1.amazonaws.com"

/-- JS `v || d` on a possibly-unset environment string: unset and empty
strings fall back to the default. -/
def envOr (v : Option String) (d : String) : String :=
  match v with
  | none => d
  | some s => if s == "" then d else s

/-- The function `getConfig()`: the override if set, else environment variables chosen
by execution context (`typeof window === 'undefined'`). -/
def getConfig (env : Env) (st : ClientState) : Config :=
  match st.testConfig with
  | some c => c
  | none =>
    if !env.hasWindow then
      { apiKey := env.SHIPI18N_API_KEY
        apiUrl := envOr env.SHIPI18N_API_URL defaultApiUrl }
    else
      { apiKey := env.NEXT_PUBLIC_SHIPI18N_API_KEY
        apiUrl := envOr env.NEXT_PUBLIC_SHIPI18N_API_URL defaultApiUrl }

/-- The JS test `!apiKey` for the configured key: unset or empty is falsy. -/
def falsyApiKey : Option String → Bool
  | none => true
  | some s => s == ""

/-!
## HTTP transport model

`fetch` is a parameter of every operation.  A response is its status plus
the outcome of `response.json()` (`Except.error` when the body does not
parse as JSON; the error value is the parse error's message).
-/

/-- The request `fetch` receives: URL, method (absent means the transport
default GET), the final header mapping, and the object whose
serialization is the body. -/
structure HttpRequest where
  url : String
  method : Option String
  headers : List (String × String)
  body : Option Json
  deriving Repr

/-- The response the transport returns. -/
structure HttpResponse where
  status : Nat
  jsonBody : Except String Json
  deriving Repr

/-- JS `response.ok`: status in the range 200–299. -/
def HttpResponse.ok (r : HttpResponse) : Bool :=
  200 ≤ r.status && r.status < 300

/-- The stubbed `fetch`. -/
abbrev Transport := HttpRequest → HttpResponse

/-- Result of an operation: the value it fulfills with or the message of
the error it rejects with, together with the requests it issued. -/
abbrev OpResult := Except String Json × List HttpRequest

/-- Lookup in a JS object literal built from an ordered field list where
later duplicate keys overwrite earlier ones (object spread semantics). -/
def jsObjLookup (kvs : List (String × String)) (k : String) : Option String :=
  kvs.foldl (fun acc kv => if kv.1 == k then some kv.2 else acc) none

/-!
## Request gateway (`apiRequest`, lines 49–73)
-/

/-- The configuration-error message thrown when the API key is falsy. -/
def apiKeyMissingMsg : String :=
  "SHIPI18N_API_KEY is not set. Get your free key at https://shipi18n.com"

/-- The header object literal
`{'Content-Type': ..., 'X-API-Key': apiKey, ...options.headers}`:
mandatory entries first, caller entries spread after them (so caller
entries win under `jsObjLookup`). -/
def buildHeaders (apiKey : String) (callerHeaders : List (String × String)) :
    List (String × String) :=
  [("Content-Type", "application/json"), ("X-API-Key", apiKey)] ++ callerHeaders

/-- The caller-controlled part of `fetch` options used by this code. -/
structure FetchOptions where
  method : Option String := none
  headers : List (String × String) := []
  body : Option Json := none
  deriving Repr

/-- The request `apiRequest` hands to `fetch` (lines 56–65): the joined
URL, the caller's method and body, and the merged headers. -/
def sentRequest (env : Env) (st : ClientState) (endpoint : String)
    (options : FetchOptions) : HttpRequest :=
  { url := (getConfig env st).apiUrl ++ "/api" ++ endpoint
    method := options.method
    body := options.body
    headers := buildHeaders ((getConfig env st).apiKey.getD "") options.headers }

/-- The gateway `apiRequest(endpoint, options)`. -/
def apiRequest (env : Env) (transport : Transport) (st : ClientState)
    (endpoint : String) (options : FetchOptions) : OpResult × ClientState :=
  let cfg := getConfig env st
  if falsyApiKey cfg.apiKey then
    ((.error apiKeyMissingMsg, []), st)
  else
    let req := sentRequest env st endpoint options
    let response := transport req
    if response.ok then
      ((response.jsonBody, [req]), st)
    else
      let errorData := match response.jsonBody with
        | .ok j => j
        | .error _ => Json.obj []
      let msg := match jsGet errorData "message" with
        | some m =>
          if truthy m then jsString m else "API error: " ++ toString response.status
        | none => "API error: " ++ toString response.status
      ((.error msg, [req]), st)

/-!
## Translation operations (lines 84–171) and `healthCheck` (lines 176–180)

Each operation takes its single options-object argument as a `Json`
value and destructures it by property lookup, defaults firing on
`undefined` exactly as JS destructuring defaults do.
-/

/-- The operation `translate({text, sourceLanguage = 'en', targetLanguages,
preservePlaceholders = true, enablePluralization = true})`. -/
def translate (env : Env) (transport : Transport) (st : ClientState)
    (args : Json) : OpResult × ClientState :=
  let text := jsGet args "text"
  let sourceLanguage := (jsGet args "sourceLanguage").getD (.str "en")
  let targetLanguages := jsGet args "targetLanguages"
  let preservePlaceholders := (jsGet args "preservePlaceholders").getD (.bool true)
  let enablePluralization := (jsGet args "enablePluralization").getD (.bool true)
  if !(optTruthy text) then
    ((.error "Text is required", []), st)
  else if !(optTruthy (optChainLength targetLanguages)) then
    ((.error "At least one target language is required", []), st)
  else
    apiRequest env transport st "/translate"
      { method := some "POST"
        body := some (objOf
          [("text", text),
           ("sourceLanguage", some sourceLanguage),
           ("targetLanguages", targetLanguages),
           ("preservePlaceholders", some preservePlaceholders),
           ("enablePluralization", some enablePluralization)]) }

/-- JS `typeof json === 'string' ? json : JSON.stringify(json)`; an
`undefined` argument stays `undefined` (`JSON.stringify(undefined)` is
`undefined`). -/
def toJsonString : Option Json → Option String
  | some (.str s) => some s
  | some j => some (jsonStringify j)
  | none => none

/-- The operation `translateJSON({json, sourceLanguage = 'en', targetLanguages,
preservePlaceholders = true, enablePluralization = true})` — note: no
local validation at all. -/
def translateJSON (env : Env) (transport : Transport) (st : ClientState)
    (args : Json) : OpResult × ClientState :=
  let json := jsGet args "json"
  let sourceLanguage := (jsGet args "sourceLanguage").getD (.str "en")
  let targetLanguages := jsGet args "targetLanguages"
  let preservePlaceholders := (jsGet args "preservePlaceholders").getD (.bool true)
  let enablePluralization := (jsGet args "enablePluralization").getD (.bool true)
  let jsonString := toJsonString json
  apiRequest env transport st "/translate"
    { method := some "POST"
      body := some (objOf
        [("text", jsonString.map .str),
         ("sourceLanguage", some sourceLanguage),
         ("targetLanguages", targetLanguages),
         ("preservePlaceholders", some preservePlaceholders),
         ("enablePluralization", some enablePluralization),
         ("outputFormat", some (.str "json"))]) }

/-- The projection loop of `translateLocaleFile` (lines 163–168):
`for (const lang of targetLanguages) if (result[lang])
translations[lang] = result[lang]`.  The iteration values are coerced to
property keys by `String()`. -/
def localeProjection (langs : List Json) (result : Json) : List (String × Json) :=
  langs.foldl
    (fun acc lang =>
      match jsGet result (jsString lang) with
      | some v => if truthy v then setKey acc (jsString lang) v else acc
      | none => acc)
    []

/-- The operation `translateLocaleFile({content, sourceLanguage = 'en',
targetLanguages, preservePlaceholders = true,
enablePluralization = true})`: delegates to `translateJSON`, then
projects the result onto the requested languages. -/
def translateLocaleFile (env : Env) (transport : Transport) (st : ClientState)
    (args : Json) : OpResult × ClientState :=
  let content := jsGet args "content"
  let sourceLanguage := (jsGet args "sourceLanguage").getD (.str "en")
  let targetLanguages := jsGet args "targetLanguages"
  let preservePlaceholders := (jsGet args "preservePlaceholders").getD (.bool true)
  let enablePluralization := (jsGet args "enablePluralization").getD (.bool true)
  let inner := translateJSON env transport st (objOf
    [("json", content),
     ("sourceLanguage", some sourceLanguage),
     ("targetLanguages", targetLanguages),
     ("preservePlaceholders", some preservePlaceholders),
     ("enablePluralization", some enablePluralization)])
  match inner with
  | ((.error e, trace), st') => ((.error e, trace), st')
  | ((.ok result, trace), st') =>
    match targetLanguages.bind jsIterate with
    | some langs => ((.ok (.obj (localeProjection langs result)), trace), st')
    | none => ((.error "targetLanguages is not iterable", trace), st')

/-- The function `healthCheck()`: an unauthenticated GET of `/api/health` — no API-key
check, no custom headers. -/
def healthCheck (env : Env) (transport : Transport) (st : ClientState) :
    OpResult × ClientState :=
  let cfg := getConfig env st
  let req : HttpRequest :=
    { url := cfg.apiUrl ++ "/api/health"
      method := none
      headers := []
      body := none }
  let response := transport req
  ((response.jsonBody, [req]), st)

/-!
## Proxy route handler (`src/app/api/translate/route.js`)

The handler is modelled on an already-parsed request body (a `Json`
value); `Response.json(x, {status})` is a status/body pair.
-/

/-- An HTTP response produced by the route handler. -/
structure RouteResponse where
  status : Nat
  body : Json
  deriving Repr

/-- Test `targetLanguages.length === 0` (evaluated only when
`targetLanguages` is truthy, thanks to `||` short-circuiting): strict
equality holds only for an actual numeric length 0. -/
def lengthStrictEqZero (tl : Option Json) : Bool :=
  match tl with
  | some j =>
    match jsLengthVal j with
    | some (.num n) => n == 0
    | _ => false
  | none => false

/-- The dispatch step of the route handler (lines 28–44): choose
`translateJSON` or `translate` on `outputFormat === 'json'`. -/
def routeDispatch (env : Env) (transport : Transport) (st : ClientState)
    (text targetLanguages : Option Json) (preservePlaceholders : Json)
    (outputFormat : Option Json) : OpResult × ClientState :=
  match outputFormat with
  | some (.str "json") =>
    translateJSON env transport st (objOf
      [("json", text),
       ("targetLanguages", targetLanguages),
       ("preservePlaceholders", some preservePlaceholders)])
  | _ =>
    translate env transport st (objOf
      [("text", text),
       ("targetLanguages", targetLanguages),
       ("preservePlaceholders", some preservePlaceholders)])

/-- Handler `POST(request)` of the proxy route, on the parsed request body. -/
def routePOST (env : Env) (transport : Transport) (st : ClientState)
    (reqBody : Json) : RouteResponse × ClientState :=
  let text := jsGet reqBody "text"
  let targetLanguages := jsGet reqBody "targetLanguages"
  let preservePlaceholders := (jsGet reqBody "preservePlaceholders").getD (.bool true)
  let outputFormat := jsGet reqBody "outputFormat"
  if !(optTruthy text) then
    (⟨400, .obj [("error", .str "Text is required")]⟩, st)
  else if !(optTruthy targetLanguages) || lengthStrictEqZero targetLanguages then
    (⟨400, .obj [("error", .str "At least one target language is required")]⟩, st)
  else
    match routeDispatch env transport st text targetLanguages preservePlaceholders outputFormat with
    | ((.ok r, _), st') => (⟨200, r⟩, st')
    | ((.error e, _), st') =>
      (⟨500, .obj [("error", .str (if e == "" then "Translation failed" else e))]⟩, st')

/-!
## Concrete fixtures for witnesses and counterexamples
-/

/-- A server-side environment with a configured key. -/
def envServer : Env :=
  { hasWindow := false
    SHIPI18N_API_KEY := some "server-key"
    SHIPI18N_API_URL := some "https://api.example.com"
    NEXT_PUBLIC_SHIPI18N_API_KEY := none
    NEXT_PUBLIC_SHIPI18N_API_URL := none }

/-- A server-side environment with no API key at all. -/
def envNoKey : Env :=
  { hasWindow := false
    SHIPI18N_API_KEY := none
    SHIPI18N_API_URL := some "https://api.example.com"
    NEXT_PUBLIC_SHIPI18N_API_KEY := none
    NEXT_PUBLIC_SHIPI18N_API_URL := none }

/-- The initial module state: no `testConfig` override. -/
def stEmpty : ClientState := { testConfig := none }

/-- A stubbed deterministic transport answering every request with one
fixed status and body. -/
def constTransport (status : Nat) (body : Except String Json) : Transport :=
  fun _ => { status := status, jsonBody := body }

/-- A healthy `/api/health` response body. -/
def healthBody : Json := Json.obj [("status", Json.str "ok")]

/-!
## Helper lemmas
-/

/-- Folding the object-spread lookup step from any accumulator: a match in
the spread part wins, otherwise the accumulator survives. -/
theorem jsObjLookup_foldl (b : List (String × String)) (k : String) (acc : Option String) :
    b.foldl (fun acc kv => if kv.1 == k then some kv.2 else acc) acc =
      match jsObjLookup b k with
      | some v => some v
      | none => acc := by
  induction b generalizing acc with
  | nil => rfl
  | cons kv rest ih =>
    simp only [jsObjLookup, List.foldl] at *
    rw [ih, ih (if kv.1 == k then some kv.2 else none)]
    cases h : rest.foldl (fun acc kv => if kv.1 == k then some kv.2 else acc) none
    all_goals simp [jsObjLookup, h]
    all_goals split
    all_goals simp

/-- Object-spread lookup across a concatenation: the later (spread) part
takes precedence. -/
theorem jsObjLookup_append (a b : List (String × String)) (k : String) :
    jsObjLookup (a ++ b) k =
      match jsObjLookup b k with
      | some v => some v
      | none => jsObjLookup a k := by
  simp only [jsObjLookup, List.foldl_append]
  rw [jsObjLookup_foldl]; rfl

/-- Behavior of `List.lookup` on a cons cell, phrased with propositional equality. -/
theorem lookup_cons {β : Type} (l : List (String × β)) (k k' : String) (v : β) :
    List.lookup k ((k', v) :: l) = if k = k' then some v else List.lookup k l := by
  by_cases h : k = k'
  · simp [List.lookup, h]
  · have hb : (k == k') = false := beq_eq_false_iff_ne.mpr h
    simp [List.lookup, hb, h]

/-- Behavior of `List.lookup` across an append: the first list takes precedence. -/
theorem lookup_append {β : Type} (l1 l2 : List (String × β)) (k : String) :
    List.lookup k (l1 ++ l2) =
      match List.lookup k l1 with
      | some v => some v
      | none => List.lookup k l2 := by
  induction l1 with
  | nil => rfl
  | cons kv rest ih =>
    obtain ⟨k', v⟩ := kv
    rw [List.cons_append, lookup_cons, lookup_cons]
    by_cases h : k = k'
    · simp [h]
    · simp only [h, if_false]
      exact ih

/-- If no key of the list matches `k`, the lookup is `none`. -/
theorem lookup_none_of_any_false (l : List (String × Json)) (k : String)
    (h : l.any (fun kv => kv.1 == k) = false) : List.lookup k l = none := by
  induction l with
  | nil => rfl
  | cons kv rest ih =>
    obtain ⟨k', v⟩ := kv
    simp only [List.any_cons, Bool.or_eq_false_iff] at h
    rw [lookup_cons]
    have hne : k ≠ k' := fun he => by simp [he] at h
    simp only [hne, if_false]
    exact ih h.2

/-- Overwriting the entries keyed `k'` leaves lookups of other keys
unchanged. -/
theorem lookup_map_overwrite_ne (rest : List (String × Json)) (k k' : String) (v : Json)
    (h : k ≠ k') :
    List.lookup k (rest.map fun kv => if kv.1 == k' then (k', v) else kv) =
      List.lookup k rest := by
  induction rest with
  | nil => rfl
  | cons kv tl ih =>
    obtain ⟨a, b⟩ := kv
    simp only [List.map]
    by_cases hk : a = k'
    · simp only [hk, beq_self_eq_true, if_true]
      rw [lookup_cons, lookup_cons]
      simp only [h, hk, if_false]
      exact ih
    · have hb : (a == k') = false := beq_eq_false_iff_ne.mpr hk
      simp only [hb, Bool.false_eq_true, if_false]
      rw [lookup_cons, lookup_cons]
      by_cases hq : k = a
      · simp [hq]
      · simp only [hq, if_false]
        exact ih

/-- Overwriting the entries keyed `k` makes the lookup of `k` return the
new value, provided such an entry exists. -/
theorem lookup_map_overwrite_self (rest : List (String × Json)) (k : String) (v : Json)
    (h : rest.any (fun kv => kv.1 == k) = true) :
    List.lookup k (rest.map fun kv => if kv.1 == k then (k, v) else kv) = some v := by
  induction rest with
  | nil => simp at h
  | cons kv tl ih =>
    obtain ⟨a, b⟩ := kv
    simp only [List.map]
    by_cases hk : a = k
    · simp only [hk, beq_self_eq_true, if_true, lookup_cons, if_pos rfl]
    · have hb : (a == k) = false := beq_eq_false_iff_ne.mpr hk
      simp only [hb, Bool.false_eq_true, if_false]
      rw [lookup_cons]
      have hne : k ≠ a := fun he => hk he.symm
      simp only [hne, if_false]
      simp only [List.any_cons, hb, Bool.false_or] at h
      exact ih h

/-- After `setKey kvs k v`, the key `k` maps to `v`. -/
theorem setKey_lookup_self (kvs : List (String × Json)) (k : String) (v : Json) :
    (setKey kvs k v).lookup k = some v := by
  unfold setKey
  split
  case isTrue h => exact lookup_map_overwrite_self kvs k v h
  case isFalse h =>
    rw [lookup_append, lookup_none_of_any_false kvs k (Bool.not_eq_true _ ▸ Bool.of_not_eq_true h)]
    rw [lookup_cons]
    simp

/-- After `setKey kvs k' v`, every other key is unchanged. -/
theorem setKey_lookup_ne (kvs : List (String × Json)) (k' : String) (v : Json)
    (k : String) (h : k ≠ k') :
    (setKey kvs k' v).lookup k = kvs.lookup k := by
  unfold setKey
  split
  case isTrue hany => exact lookup_map_overwrite_ne kvs k k' v h
  case isFalse hany =>
    rw [lookup_append]
    cases hl : List.lookup k kvs with
    | some w => rfl
    | none =>
      rw [lookup_cons]
      simp [h]

/-- The projection loop, from any accumulator: a key ends up bound exactly
when some requested language names it and the response value there is
truthy, in which case it carries the response value. -/
theorem localeProjection_foldl (raw : Json) (k : String) (langs : List Json)
    (acc : List (String × Json)) :
    (langs.foldl
      (fun acc lang =>
        match jsGet raw (jsString lang) with
        | some v => if truthy v then setKey acc (jsString lang) v else acc
        | none => acc)
      acc).lookup k =
      if langs.any (fun l => jsString l == k) && optTruthy (jsGet raw k) then jsGet raw k
      else acc.lookup k := by
  induction langs generalizing acc with
  | nil => simp
  | cons lang rest ih =>
    rw [List.foldl_cons, ih, List.any_cons]
    by_cases hp : jsString lang = k
    · have hb : (jsString lang == k) = true := beq_iff_eq.mpr hp
      simp only [hb, Bool.true_or, hp]
      cases hv : jsGet raw k with
      | none => simp [hv, optTruthy]
      | some v =>
        cases htr : truthy v with
        | false => simp [hv, htr, optTruthy]
        | true =>
          simp only [hv, htr, if_true, optTruthy, Bool.and_true]
          cases hrest : rest.any (fun l => jsString l == k) with
          | true => simp
          | false =>
            simp [hrest, setKey_lookup_self]
    · have hb : (jsString lang == k) = false := beq_eq_false_iff_ne.mpr hp
      simp only [hb, Bool.false_or]
      cases hcond : rest.any (fun l => jsString l == k) && optTruthy (jsGet raw k) with
      | true => simp [hcond]
      | false =>
        simp only [hcond, Bool.false_eq_true, if_false]
        cases hv : jsGet raw (jsString lang) with
        | none => rfl
        | some v =>
          cases htr : truthy v with
          | false => simp [htr]
          | true =>
            simp only [htr, if_true]
            exact setKey_lookup_ne acc (jsString lang) v k (fun he => hp he.symm)

/-- Lookup characterization of the whole `translateLocaleFile`
projection. -/
theorem localeProjection_lookup (raw : Json) (k : String) (langs : List Json) :
    (localeProjection langs raw).lookup k =
      if langs.any (fun l => jsString l == k) && optTruthy (jsGet raw k) then jsGet raw k
      else none := by
  rw [localeProjection, localeProjection_foldl]
  rfl

/-- Running `apiRequest` against a transport constantly answering 200 with a
parsed body `raw` succeeds with `raw` after exactly one request. -/
theorem apiRequest_constOk (env : Env) (st : ClientState) (endpoint : String)
    (options : FetchOptions) (raw : Json)
    (hkey : falsyApiKey (getConfig env st).apiKey = false) :
    apiRequest env (constTransport 200 (.ok raw)) st endpoint options =
      ((.ok raw, [sentRequest env st endpoint options]), st) := by
  simp only [apiRequest, hkey, Bool.false_eq_true, if_false, constTransport]
  norm_num [HttpResponse.ok]

/-- With a truthy key, `apiRequest` issues exactly the one request built
by `sentRequest`, whatever the response. -/
theorem apiRequest_trace (env : Env) (T : Transport) (st : ClientState)
    (endpoint : String) (options : FetchOptions)
    (hkey : falsyApiKey (getConfig env st).apiKey = false) :
    (apiRequest env T st endpoint options).1.2 = [sentRequest env st endpoint options] := by
  simp only [apiRequest, hkey, Bool.false_eq_true, if_false]
  split
  · rfl
  · rfl

/-- With a truthy key and a success-status response, `apiRequest` returns
the outcome of parsing the response body, verbatim. -/
theorem apiRequest_ok (env : Env) (T : Transport) (st : ClientState)
    (endpoint : String) (options : FetchOptions)
    (hkey : falsyApiKey (getConfig env st).apiKey = false)
    (hok : (T (sentRequest env st endpoint options)).ok = true) :
    (apiRequest env T st endpoint options).1.1 =
      (T (sentRequest env st endpoint options)).jsonBody := by
  simp only [apiRequest, hkey, Bool.false_eq_true, if_false, hok, if_true]

/-- The gateway `apiRequest` never mutates the module state. -/
theorem apiRequest_state (env : Env) (T : Transport) (st : ClientState)
    (endpoint : String) (options : FetchOptions) :
    (apiRequest env T st endpoint options).2 = st := by
  simp only [apiRequest]
  split
  · rfl
  · split
    · rfl
    · rfl

/-- With a falsy key, `apiRequest` rejects with the configuration error
before issuing any request. -/
theorem apiRequest_noKey (env : Env) (T : Transport) (st : ClientState)
    (endpoint : String) (options : FetchOptions)
    (hkey : falsyApiKey (getConfig env st).apiKey = true) :
    apiRequest env T st endpoint options = ((.error apiKeyMissingMsg, []), st) := by
  simp only [apiRequest, hkey, if_true]

/-- In the merged header object, any key of the caller's headers keeps the
caller's value. -/
theorem buildHeaders_lookup_caller (key k v : String)
    (caller : List (String × String)) (h : jsObjLookup caller k = some v) :
    jsObjLookup (buildHeaders key caller) k = some v := by
  simp only [buildHeaders, jsObjLookup_append, h]

/-- In the merged header object, a key the caller did not supply falls
back to the mandatory entries. -/
theorem buildHeaders_lookup_default (key k : String)
    (caller : List (String × String)) (h : jsObjLookup caller k = none) :
    jsObjLookup (buildHeaders key caller) k =
      jsObjLookup [("Content-Type", "application/json"), ("X-API-Key", key)] k := by
  simp only [buildHeaders, jsObjLookup_append, h]

/-!
## Claim C1
-/

/-- C1 counterexample: with the configured key `"server-key"`, a caller
passing its own `X-API-Key` header makes the outgoing request carry the
caller's value, not the configured key — the claim's exception for the
auth header is false on the code (`...options.headers` is spread last). -/
theorem C1_counterexample_auth_header_overridden :
    (getConfig envServer stEmpty).apiKey = some "server-key" ∧
    (∃ req,
      (apiRequest envServer (constTransport 200 (.ok (Json.obj []))) stEmpty "/translate"
          { headers := [("X-API-Key", "attacker-key")] }).1.2 = [req] ∧
      jsObjLookup req.headers "X-API-Key" = some "attacker-key") ∧
    ("attacker-key" : String) ≠ "server-key" := by
  refine ⟨rfl, ⟨_, rfl, by decide⟩, by decide⟩

/-- C1 (amended): the outgoing headers are the object-spread merge of the
mandatory headers with the caller's headers; no caller header is dropped
and caller values take precedence on every conflicting key, including
`X-API-Key`; the mandatory values apply exactly when the caller did not
supply those keys. -/
theorem C1_headers_merge (env : Env) (T : Transport) (st : ClientState)
    (endpoint : String) (options : FetchOptions)
    (hkey : falsyApiKey (getConfig env st).apiKey = false) :
    ∃ req,
      (apiRequest env T st endpoint options).1.2 = [req] ∧
      req.headers = buildHeaders ((getConfig env st).apiKey.getD "") options.headers ∧
      (∀ k v, jsObjLookup options.headers k = some v →
        jsObjLookup req.headers k = some v) ∧
      (jsObjLookup options.headers "Content-Type" = none →
        jsObjLookup req.headers "Content-Type" = some "application/json") ∧
      (jsObjLookup options.headers "X-API-Key" = none →
        jsObjLookup req.headers "X-API-Key" = some ((getConfig env st).apiKey.getD "")) := by
  refine ⟨sentRequest env st endpoint options,
    apiRequest_trace env T st endpoint options hkey, rfl, ?_, ?_, ?_⟩
  · intro k v h
    simp only [sentRequest]
    exact buildHeaders_lookup_caller _ k v options.headers h
  · intro h
    simp only [sentRequest]
    rw [buildHeaders_lookup_default _ _ _ h]
    simp [jsObjLookup]
  · intro h
    simp only [sentRequest]
    rw [buildHeaders_lookup_default _ _ _ h]
    simp [jsObjLookup]

/-- C1 witness: the amended header-merge theorem at a concrete
configuration and caller header list. -/
theorem C1_headers_merge_witness :
    ∃ req,
      (apiRequest envServer (constTransport 200 (.ok (Json.obj []))) stEmpty "/translate"
          { headers := [("Accept", "text/plain")] }).1.2 = [req] ∧
      req.headers = buildHeaders ((getConfig envServer stEmpty).apiKey.getD "")
          (FetchOptions.headers { headers := [("Accept", "text/plain")] }) ∧
      (∀ k v, jsObjLookup (FetchOptions.headers { headers := [("Accept", "text/plain")] }) k = some v →
        jsObjLookup req.headers k = some v) ∧
      (jsObjLookup (FetchOptions.headers { headers := [("Accept", "text/plain")] }) "Content-Type" = none →
        jsObjLookup req.headers "Content-Type" = some "application/json") ∧
      (jsObjLookup (FetchOptions.headers { headers := [("Accept", "text/plain")] }) "X-API-Key" = none →
        jsObjLookup req.headers "X-API-Key" = some ((getConfig envServer stEmpty).apiKey.getD "")) :=
  C1_headers_merge envServer (constTransport 200 (.ok (Json.obj []))) stEmpty "/translate"
    { headers := [("Accept", "text/plain")] } (by rfl)

/-!
## Claim C2
-/

/-- C2 counterexample: `healthCheck` is an operation of the client, yet
with no API key configured it still issues one network call and succeeds —
refuting "every operation ... performs zero network calls". -/
theorem C2_counterexample_healthCheck_ignores_key :
    falsyApiKey (getConfig envNoKey stEmpty).apiKey = true ∧
    (healthCheck envNoKey (constTransport 200 (.ok healthBody)) stEmpty).1.2.length = 1 ∧
    (healthCheck envNoKey (constTransport 200 (.ok healthBody)) stEmpty).1.1 = .ok healthBody := by
  exact ⟨rfl, rfl, rfl⟩

/-- C2 (amended): every operation that goes through the authenticated
request gateway — `apiRequest` itself, `translate` on inputs passing its
local validation, and `translateJSON`/`translateLocaleFile` on all
inputs — fails with the exact configuration error and performs zero
network calls when the resolved `apiKey` is falsy; `healthCheck` is the
exception (unauthenticated, no key check). -/
theorem C2_no_key_no_network (env : Env) (T : Transport) (st : ClientState)
    (hkey : falsyApiKey (getConfig env st).apiKey = true) :
    (∀ endpoint options,
      apiRequest env T st endpoint options = ((.error apiKeyMissingMsg, []), st)) ∧
    (∀ args, optTruthy (jsGet args "text") = true →
      optTruthy (optChainLength (jsGet args "targetLanguages")) = true →
      translate env T st args = ((.error apiKeyMissingMsg, []), st)) ∧
    (∀ args, translateJSON env T st args = ((.error apiKeyMissingMsg, []), st)) ∧
    (∀ args, translateLocaleFile env T st args = ((.error apiKeyMissingMsg, []), st)) := by
  have hJSON : ∀ args, translateJSON env T st args = ((.error apiKeyMissingMsg, []), st) := by
    intro args
    simp only [translateJSON]
    exact apiRequest_noKey env T st _ _ hkey
  refine ⟨fun endpoint options => apiRequest_noKey env T st endpoint options hkey,
    ?_, hJSON, ?_⟩
  · intro args h1 h2
    simp only [translate, h1, h2, Bool.not_true, Bool.false_eq_true, if_false]
    exact apiRequest_noKey env T st _ _ hkey
  · intro args
    simp only [translateLocaleFile, hJSON]

/-- C2 witness: the amended theorem at a concrete keyless environment and
concrete arguments. -/
theorem C2_no_key_no_network_witness :
    (∀ endpoint options,
      apiRequest envNoKey (constTransport 200 (.ok healthBody)) stEmpty endpoint options =
        ((.error apiKeyMissingMsg, []), stEmpty)) ∧
    (∀ args, optTruthy (jsGet args "text") = true →
      optTruthy (optChainLength (jsGet args "targetLanguages")) = true →
      translate envNoKey (constTransport 200 (.ok healthBody)) stEmpty args =
        ((.error apiKeyMissingMsg, []), stEmpty)) ∧
    (∀ args, translateJSON envNoKey (constTransport 200 (.ok healthBody)) stEmpty args =
      ((.error apiKeyMissingMsg, []), stEmpty)) ∧
    (∀ args, translateLocaleFile envNoKey (constTransport 200 (.ok healthBody)) stEmpty args =
      ((.error apiKeyMissingMsg, []), stEmpty)) :=
  C2_no_key_no_network envNoKey (constTransport 200 (.ok healthBody)) stEmpty (by rfl)

/-!
## Claim C3
-/

/-- C3: `translate` fails with `"Text is required"` and zero transport
calls when `text` is falsy; then with `"At least one target language is
required"` and zero calls when `targetLanguages` is missing/empty; on
valid inputs (and a configured key) it performs exactly one POST to the
`/translate` endpoint and returns the parsed response verbatim. -/
theorem C3_translate_contract (env : Env) (T : Transport) (st : ClientState)
    (args : Json) :
    (optTruthy (jsGet args "text") = false →
      translate env T st args = ((.error "Text is required", []), st)) ∧
    (optTruthy (jsGet args "text") = true →
      optTruthy (optChainLength (jsGet args "targetLanguages")) = false →
      translate env T st args =
        ((.error "At least one target language is required", []), st)) ∧
    (optTruthy (jsGet args "text") = true →
      optTruthy (optChainLength (jsGet args "targetLanguages")) = true →
      falsyApiKey (getConfig env st).apiKey = false →
      ∃ req, (translate env T st args).1.2 = [req] ∧
        req.method = some "POST" ∧
        req.url = (getConfig env st).apiUrl ++ "/api/translate" ∧
        ((T req).ok = true → (translate env T st args).1.1 = (T req).jsonBody)) := by
  refine ⟨?_, ?_, ?_⟩
  · intro h1
    simp only [translate, h1, Bool.not_false, if_true]
  · intro h1 h2
    simp only [translate, h1, h2, Bool.not_true, Bool.not_false, Bool.false_eq_true,
      if_false, if_true]
  · intro h1 h2 hkey
    simp only [translate, h1, h2, Bool.not_true, Bool.false_eq_true, if_false]
    refine ⟨sentRequest env st "/translate" _, apiRequest_trace env T st _ _ hkey,
      rfl, ?_, fun hok => apiRequest_ok env T st _ _ hkey hok⟩
    show (getConfig env st).apiUrl ++ "/api" ++ "/translate" =
      (getConfig env st).apiUrl ++ "/api/translate"
    rw [String.append_assoc]
    rfl

/-- C3 witness: the three branches at concrete inputs. -/
theorem C3_translate_contract_witness :
    (translate envServer (constTransport 200 (.ok healthBody)) stEmpty
      (Json.obj [("text", .str ""), ("targetLanguages", .arr [.str "es"])]) =
      ((.error "Text is required", []), stEmpty)) ∧
    (translate envServer (constTransport 200 (.ok healthBody)) stEmpty
      (Json.obj [("text", .str "Hello"), ("targetLanguages", .arr [])]) =
      ((.error "At least one target language is required", []), stEmpty)) ∧
    (∃ req,
      (translate envServer (constTransport 200 (.ok healthBody)) stEmpty
        (Json.obj [("text", .str "Hello"), ("targetLanguages", .arr [.str "es"])])).1.2 = [req] ∧
      req.method = some "POST" ∧
      req.url = (getConfig envServer stEmpty).apiUrl ++ "/api/translate" ∧
      ((constTransport 200 (.ok healthBody) req).ok = true →
        (translate envServer (constTransport 200 (.ok healthBody)) stEmpty
          (Json.obj [("text", .str "Hello"), ("targetLanguages", .arr [.str "es"])])).1.1 =
          (constTransport 200 (.ok healthBody) req).jsonBody)) :=
  ⟨(C3_translate_contract envServer (constTransport 200 (.ok healthBody)) stEmpty
      (Json.obj [("text", .str ""), ("targetLanguages", .arr [.str "es"])])).1 (by rfl),
   (C3_translate_contract envServer (constTransport 200 (.ok healthBody)) stEmpty
      (Json.obj [("text", .str "Hello"), ("targetLanguages", .arr [])])).2.1 (by rfl) (by rfl),
   (C3_translate_contract envServer (constTransport 200 (.ok healthBody)) stEmpty
      (Json.obj [("text", .str "Hello"), ("targetLanguages", .arr [.str "es"])])).2.2
      (by rfl) (by rfl) (by rfl)⟩

/-!
## Claim C4
-/

/-- C4: `translateJSON` sends a string `json` argument unchanged as the
body's `text` field, serializes any other argument with `JSON.stringify`
(`{a:1}` becomes exactly `{"a":1}`), and always sets `outputFormat` to
`"json"` in the request body. -/
theorem C4_translateJSON_serialization (env : Env) (T : Transport)
    (st : ClientState) (args : Json)
    (hkey : falsyApiKey (getConfig env st).apiKey = false) :
    ∃ req b, (translateJSON env T st args).1.2 = [req] ∧ req.body = some b ∧
      (∀ s, jsGet args "json" = some (.str s) → jsGet b "text" = some (.str s)) ∧
      (∀ j, jsGet args "json" = some j → (∀ s, j ≠ .str s) →
        jsGet b "text" = some (.str (jsonStringify j))) ∧
      jsGet b "outputFormat" = some (.str "json") ∧
      jsonStringify (.obj [("a", .num 1)]) = "\x7b\"a\":1\x7d" := by
  simp only [translateJSON]
  refine ⟨sentRequest env st "/translate" _, _,
    apiRequest_trace env T st _ _ hkey, rfl, ?_, ?_, ?_, by rfl⟩
  · intro s h
    simp only [h, toJsonString]
    cases htl : jsGet args "targetLanguages" with
    | none => simp [objOf, jsGet, htl, List.lookup]
    | some tl => simp [objOf, jsGet, htl, List.lookup]
  · intro j h hns
    have hser : toJsonString (some j) = some (jsonStringify j) := by
      cases j with
      | str s => exact absurd rfl (hns s)
      | null => rfl
      | bool b => rfl
      | num n => rfl
      | arr xs => rfl
      | obj kvs => rfl
    simp only [h, hser]
    cases htl : jsGet args "targetLanguages" with
    | none => simp [objOf, jsGet, htl, List.lookup]
    | some tl => simp [objOf, jsGet, htl, List.lookup]
  · cases hj : jsGet args "json" with
    | none =>
      cases htl : jsGet args "targetLanguages" with
      | none => simp only [hj, htl, toJsonString]; simp [objOf, jsGet, List.lookup]
      | some tl => simp only [hj, htl, toJsonString]; simp [objOf, jsGet, List.lookup]
    | some j =>
      obtain ⟨t, ht⟩ : ∃ t, toJsonString (some j) = some t := by
        cases j
        all_goals exact ⟨_, rfl⟩
      cases htl : jsGet args "targetLanguages" with
      | none =>
        simp only [hj, htl, ht]
        simp [objOf, jsGet, List.lookup]
      | some tl =>
        simp only [hj, htl, ht]
        simp [objOf, jsGet, List.lookup]

/-- C4 witness: the serialization theorem at the concrete argument
`{json: {a:1}, targetLanguages: ["es"]}`. -/
theorem C4_translateJSON_serialization_witness :
    ∃ req b, (translateJSON envServer (constTransport 200 (.ok healthBody)) stEmpty
        (Json.obj [("json", .obj [("a", .num 1)]), ("targetLanguages", .arr [.str "es"])])).1.2 =
        [req] ∧ req.body = some b ∧
      (∀ s, jsGet (Json.obj [("json", .obj [("a", .num 1)]), ("targetLanguages", .arr [.str "es"])])
          "json" = some (.str s) → jsGet b "text" = some (.str s)) ∧
      (∀ j, jsGet (Json.obj [("json", .obj [("a", .num 1)]), ("targetLanguages", .arr [.str "es"])])
          "json" = some j → (∀ s, j ≠ .str s) →
        jsGet b "text" = some (.str (jsonStringify j))) ∧
      jsGet b "outputFormat" = some (.str "json") ∧
      jsonStringify (.obj [("a", .num 1)]) = "\x7b\"a\":1\x7d" :=
  C4_translateJSON_serialization envServer (constTransport 200 (.ok healthBody)) stEmpty
    (Json.obj [("json", .obj [("a", .num 1)]), ("targetLanguages", .arr [.str "es"])]) (by rfl)

/-!
## Claims C5 and C10
-/

/-- Over a list of string literals wrapped as `Json.str`, the projection
loop's key test is plain string equality. -/
theorem anyMapStr (langs : List String) (k : String) :
    ((langs.map Json.str).any fun l => jsString l == k) = langs.any fun l => l == k := by
  induction langs with
  | nil => rfl
  | cons a rest ih =>
    have ha : jsString (Json.str a) = a := by simp [jsString]
    simp only [List.map, List.any_cons, ha, ih]

/-- Running `translateJSON` against a transport constantly answering 200 with
body `raw` returns `raw`. -/
theorem translateJSON_constOk (env : Env) (st : ClientState) (args : Json) (raw : Json)
    (hkey : falsyApiKey (getConfig env st).apiKey = false) :
    ∃ tr, translateJSON env (constTransport 200 (.ok raw)) st args = ((.ok raw, tr), st) := by
  simp only [translateJSON]
  exact ⟨_, apiRequest_constOk env st "/translate" _ raw hkey⟩

/-- C5: on any raw response `raw` of the underlying `translateJSON` call,
`translateLocaleFile` returns a mapping binding only requested languages —
every other top-level response key is unbound — and a requested language
absent from the response is simply unbound, not failed or placeheld. -/
theorem C5_locale_projection (env : Env) (st : ClientState) (args : Json)
    (langs : List String) (raw : Json)
    (hkey : falsyApiKey (getConfig env st).apiKey = false)
    (htl : jsGet args "targetLanguages" = some (.arr (langs.map Json.str))) :
    ∃ kvs,
      (translateLocaleFile env (constTransport 200 (.ok raw)) st args).1.1 =
        .ok (.obj kvs) ∧
      (∀ k, k ∉ langs → kvs.lookup k = none) ∧
      (∀ lang ∈ langs, jsGet raw lang = none → kvs.lookup lang = none) := by
  obtain ⟨tr, hjson⟩ := translateJSON_constOk env st (objOf
    [("json", jsGet args "content"),
     ("sourceLanguage", some ((jsGet args "sourceLanguage").getD (.str "en"))),
     ("targetLanguages", jsGet args "targetLanguages"),
     ("preservePlaceholders", some ((jsGet args "preservePlaceholders").getD (.bool true))),
     ("enablePluralization", some ((jsGet args "enablePluralization").getD (.bool true)))])
    raw hkey
  simp only [translateLocaleFile]
  rw [hjson]
  simp only [htl, Option.bind, jsIterate]
  refine ⟨localeProjection (langs.map Json.str) raw, rfl, ?_, ?_⟩
  · intro k hk
    rw [localeProjection_lookup]
    have hany : ((langs.map Json.str).any fun l => jsString l == k) = false := by
      rw [anyMapStr]
      cases hq : langs.any fun l => l == k with
      | false => rfl
      | true =>
        obtain ⟨x, hx, hxk⟩ := List.any_eq_true.mp hq
        exact absurd (beq_iff_eq.mp hxk ▸ hx) hk
    simp [hany]
  · intro lang _ hnone
    rw [localeProjection_lookup, hnone]
    simp [optTruthy]

/-- C5 witness: content `{t:"x"}`, requested `["es","fr"]`, response
containing only `es` plus a diagnostic key. -/
theorem C5_locale_projection_witness :
    ∃ kvs,
      (translateLocaleFile envServer
        (constTransport 200 (.ok (Json.obj
          [("es", Json.obj [("t", Json.str "x")]), ("warnings", Json.arr [])])))
        stEmpty
        (Json.obj [("content", Json.obj [("t", Json.str "x")]),
          ("targetLanguages", Json.arr [Json.str "es", Json.str "fr"])])).1.1 =
        .ok (.obj kvs) ∧
      (∀ k, k ∉ ["es", "fr"] → kvs.lookup k = none) ∧
      (∀ lang ∈ ["es", "fr"],
        jsGet (Json.obj [("es", Json.obj [("t", Json.str "x")]), ("warnings", Json.arr [])])
          lang = none →
        kvs.lookup lang = none) :=
  C5_locale_projection envServer stEmpty
    (Json.obj [("content", Json.obj [("t", Json.str "x")]),
      ("targetLanguages", Json.arr [Json.str "es", Json.str "fr"])])
    ["es", "fr"]
    (Json.obj [("es", Json.obj [("t", Json.str "x")]), ("warnings", Json.arr [])])
    (by rfl) (by rfl)

/-- C10: a requested language whose key IS present in the raw response is
bound in the result exactly when its value is truthy — a falsy value
(`null`, `""`, `0`, `false`) is silently dropped, like an absent key. -/
theorem C10_locale_falsy_dropped (env : Env) (st : ClientState) (args : Json)
    (langs : List String) (raw : Json)
    (hkey : falsyApiKey (getConfig env st).apiKey = false)
    (htl : jsGet args "targetLanguages" = some (.arr (langs.map Json.str))) :
    ∃ kvs,
      (translateLocaleFile env (constTransport 200 (.ok raw)) st args).1.1 =
        .ok (.obj kvs) ∧
      (∀ lang ∈ langs, ∀ v, jsGet raw lang = some v →
        kvs.lookup lang = if truthy v then some v else none) := by
  obtain ⟨tr, hjson⟩ := translateJSON_constOk env st (objOf
    [("json", jsGet args "content"),
     ("sourceLanguage", some ((jsGet args "sourceLanguage").getD (.str "en"))),
     ("targetLanguages", jsGet args "targetLanguages"),
     ("preservePlaceholders", some ((jsGet args "preservePlaceholders").getD (.bool true))),
     ("enablePluralization", some ((jsGet args "enablePluralization").getD (.bool true)))])
    raw hkey
  simp only [translateLocaleFile]
  rw [hjson]
  simp only [htl, Option.bind, jsIterate]
  refine ⟨localeProjection (langs.map Json.str) raw, rfl, ?_⟩
  intro lang hmem v hv
  rw [localeProjection_lookup]
  have hany : ((langs.map Json.str).any fun l => jsString l == lang) = true := by
    rw [anyMapStr]
    exact List.any_eq_true.mpr ⟨lang, hmem, beq_self_eq_true lang⟩
  rw [hv]
  cases htr : truthy v with
  | true => simp [hany, optTruthy, htr, hv]
  | false => simp [hany, optTruthy, htr]

/-- C10 witness: `es` present in the response but bound to the falsy `""`
is dropped from the result. -/
theorem C10_locale_falsy_dropped_witness :
    ∃ kvs,
      (translateLocaleFile envServer
        (constTransport 200 (.ok (Json.obj [("es", Json.str "")])))
        stEmpty
        (Json.obj [("content", Json.obj [("t", Json.str "x")]),
          ("targetLanguages", Json.arr [Json.str "es"])])).1.1 =
        .ok (.obj kvs) ∧
      (∀ lang ∈ ["es"], ∀ v, jsGet (Json.obj [("es", Json.str "")]) lang = some v →
        kvs.lookup lang = if truthy v then some v else none) :=
  C10_locale_falsy_dropped envServer stEmpty
    (Json.obj [("content", Json.obj [("t", Json.str "x")]),
      ("targetLanguages", Json.arr [Json.str "es"])])
    ["es"] (Json.obj [("es", Json.str "")]) (by rfl) (by rfl)

/-!
## Claim C6
-/

/-- The raw failure-path result of `apiRequest`. -/
theorem apiRequest_fail (env : Env) (T : Transport) (st : ClientState)
    (endpoint : String) (options : FetchOptions)
    (hkey : falsyApiKey (getConfig env st).apiKey = false)
    (hfail : (T (sentRequest env st endpoint options)).ok = false) :
    (apiRequest env T st endpoint options).1.1 = .error (
      match jsGet (match (T (sentRequest env st endpoint options)).jsonBody with
        | .ok j => j
        | .error _ => Json.obj []) "message" with
      | some m =>
        if truthy m then jsString m
        else "API error: " ++ toString (T (sentRequest env st endpoint options)).status
      | none => "API error: " ++ toString (T (sentRequest env st endpoint options)).status) := by
  simp only [apiRequest, hkey, Bool.false_eq_true, if_false, hfail]

/-- C6 counterexample: a 404 whose body parses to `{message: ""}` — the
`message` field is present, yet the error carries the synthesized
`"API error: 404"`, not `""`, because the code tests truthiness
(`errorData.message || ...`), not presence. -/
theorem C6_counterexample_falsy_message :
    jsGet (Json.obj [("message", Json.str "")]) "message" = some (Json.str "") ∧
    (apiRequest envServer
      (constTransport 404 (.ok (Json.obj [("message", Json.str "")])))
      stEmpty "/translate" {}).1.1 = .error "API error: 404" ∧
    ("API error: 404" : String) ≠ "" := by
  refine ⟨rfl, rfl, by decide⟩

/-- C6 (amended): on a non-success status, `apiRequest` parses the body as
JSON, treating an unparseable body as empty, and fails with the body's
`message` field when that field is present AND truthy; when the field is
absent or falsy — and when the body does not parse — the message is the
synthesized `"API error: <status>"`. -/
theorem C6_error_normalization (env : Env) (T : Transport) (st : ClientState)
    (endpoint : String) (options : FetchOptions)
    (hkey : falsyApiKey (getConfig env st).apiKey = false)
    (hfail : (T (sentRequest env st endpoint options)).ok = false) :
    (∀ pe, (T (sentRequest env st endpoint options)).jsonBody = .error pe →
      (apiRequest env T st endpoint options).1.1 =
        .error ("API error: " ++ toString (T (sentRequest env st endpoint options)).status)) ∧
    (∀ body, (T (sentRequest env st endpoint options)).jsonBody = .ok body →
      jsGet body "message" = none →
      (apiRequest env T st endpoint options).1.1 =
        .error ("API error: " ++ toString (T (sentRequest env st endpoint options)).status)) ∧
    (∀ body m, (T (sentRequest env st endpoint options)).jsonBody = .ok body →
      jsGet body "message" = some m → truthy m = false →
      (apiRequest env T st endpoint options).1.1 =
        .error ("API error: " ++ toString (T (sentRequest env st endpoint options)).status)) ∧
    (∀ body m, (T (sentRequest env st endpoint options)).jsonBody = .ok body →
      jsGet body "message" = some m → truthy m = true →
      (apiRequest env T st endpoint options).1.1 = .error (jsString m)) := by
  refine ⟨?_, ?_, ?_, ?_⟩
  · intro pe hpe
    rw [apiRequest_fail env T st endpoint options hkey hfail, hpe]
    rfl
  · intro body hb hm
    rw [apiRequest_fail env T st endpoint options hkey hfail, hb]
    simp only [hm]
  · intro body m hb hm htr
    rw [apiRequest_fail env T st endpoint options hkey hfail, hb]
    simp only [hm, htr, Bool.false_eq_true, if_false]
  · intro body m hb hm htr
    rw [apiRequest_fail env T st endpoint options hkey hfail, hb]
    simp only [hm, htr, if_true]

/-- C6 witness: the four shapes of non-success response at concrete
transports — unparseable body, no `message`, falsy `message`, truthy
`message`. -/
theorem C6_error_normalization_witness :
    (apiRequest envServer (constTransport 500 (.error "bad json")) stEmpty
      "/translate" {}).1.1 = .error "API error: 500" ∧
    (apiRequest envServer (constTransport 404 (.ok (Json.obj []))) stEmpty
      "/translate" {}).1.1 = .error "API error: 404" ∧
    (apiRequest envServer (constTransport 404 (.ok (Json.obj [("message", Json.num 0)])))
      stEmpty "/translate" {}).1.1 = .error "API error: 404" ∧
    (apiRequest envServer
      (constTransport 401 (.ok (Json.obj [("message", Json.str "Invalid API key")])))
      stEmpty "/translate" {}).1.1 = .error "Invalid API key" := by
  refine ⟨?_, ?_, ?_, ?_⟩
  · exact (C6_error_normalization envServer (constTransport 500 (.error "bad json"))
      stEmpty "/translate" {} (by rfl) (by rfl)).1 "bad json" rfl
  · exact (C6_error_normalization envServer (constTransport 404 (.ok (Json.obj [])))
      stEmpty "/translate" {} (by rfl) (by rfl)).2.1 (Json.obj []) rfl rfl
  · exact (C6_error_normalization envServer
      (constTransport 404 (.ok (Json.obj [("message", Json.num 0)])))
      stEmpty "/translate" {} (by rfl) (by rfl)).2.2.1 (Json.obj [("message", Json.num 0)])
      (Json.num 0) rfl rfl rfl
  · have := (C6_error_normalization envServer
      (constTransport 401 (.ok (Json.obj [("message", Json.str "Invalid API key")])))
      stEmpty "/translate" {} (by rfl) (by rfl)).2.2.2
      (Json.obj [("message", Json.str "Invalid API key")])
      (Json.str "Invalid API key") rfl rfl rfl
    simpa [jsString] using this

/-!
## Claim C7
-/

/-- C7: the proxy route validates in order — missing/falsy `text` gives
400 `{error: "Text is required"}`, then missing/empty `targetLanguages`
gives 400 `{error: "At least one target language is required"}`; past
validation, a thrown error from the dispatched operation maps to 500 with
the thrown message (or `"Translation failed"` for a falsy message), and a
successful result is returned verbatim with 200. -/
theorem C7_route_contract (env : Env) (T : Transport) (st : ClientState)
    (reqBody : Json) :
    (optTruthy (jsGet reqBody "text") = false →
      routePOST env T st reqBody =
        (⟨400, .obj [("error", .str "Text is required")]⟩, st)) ∧
    (optTruthy (jsGet reqBody "text") = true →
      (optTruthy (jsGet reqBody "targetLanguages") = false ∨
        lengthStrictEqZero (jsGet reqBody "targetLanguages") = true) →
      routePOST env T st reqBody =
        (⟨400, .obj [("error", .str "At least one target language is required")]⟩, st)) ∧
    (optTruthy (jsGet reqBody "text") = true →
      optTruthy (jsGet reqBody "targetLanguages") = true →
      lengthStrictEqZero (jsGet reqBody "targetLanguages") = false →
      (∀ e tr st', routeDispatch env T st (jsGet reqBody "text")
          (jsGet reqBody "targetLanguages")
          ((jsGet reqBody "preservePlaceholders").getD (.bool true))
          (jsGet reqBody "outputFormat") = ((.error e, tr), st') →
        routePOST env T st reqBody =
          (⟨500, .obj [("error", .str (if e == "" then "Translation failed" else e))]⟩, st')) ∧
      (∀ r tr st', routeDispatch env T st (jsGet reqBody "text")
          (jsGet reqBody "targetLanguages")
          ((jsGet reqBody "preservePlaceholders").getD (.bool true))
          (jsGet reqBody "outputFormat") = ((.ok r, tr), st') →
        routePOST env T st reqBody = (⟨200, r⟩, st'))) := by
  refine ⟨?_, ?_, ?_⟩
  · intro h1
    simp only [routePOST, h1, Bool.not_false, if_true]
  · intro h1 h2
    have hcond : (!(optTruthy (jsGet reqBody "targetLanguages")) ||
        lengthStrictEqZero (jsGet reqBody "targetLanguages")) = true := by
      cases h2 with
      | inl h => simp [h]
      | inr h => simp [h]
    simp only [routePOST, h1, Bool.not_true, Bool.false_eq_true, if_false, hcond, if_true]
  · intro h1 h2 h3
    have hcond : (!(optTruthy (jsGet reqBody "targetLanguages")) ||
        lengthStrictEqZero (jsGet reqBody "targetLanguages")) = false := by
      simp [h2, h3]
    refine ⟨?_, ?_⟩
    · intro e tr st' hd
      simp only [routePOST, h1, Bool.not_true, Bool.false_eq_true, if_false, hcond, hd]
    · intro r tr st' hd
      simp only [routePOST, h1, Bool.not_true, Bool.false_eq_true, if_false, hcond, hd]

/-- C7 witness: posting `{}` gives the `text` 400; posting without
languages gives the language 400; a transport that makes the operation
throw `"API error: 500"` yields 500 with that message; a succeeding
transport yields 200 with the operation's result verbatim. -/
theorem C7_route_contract_witness :
    (routePOST envServer (constTransport 200 (.ok healthBody)) stEmpty (Json.obj []) =
      (⟨400, .obj [("error", .str "Text is required")]⟩, stEmpty)) ∧
    (routePOST envServer (constTransport 200 (.ok healthBody)) stEmpty
      (Json.obj [("text", .str "x")]) =
      (⟨400, .obj [("error", .str "At least one target language is required")]⟩, stEmpty)) ∧
    (routePOST envServer (constTransport 500 (.ok (Json.obj []))) stEmpty
      (Json.obj [("text", .str "x"), ("targetLanguages", .arr [.str "es"])]) =
      (⟨500, .obj [("error", .str "API error: 500")]⟩, stEmpty)) ∧
    (routePOST envServer (constTransport 200 (.ok healthBody)) stEmpty
      (Json.obj [("text", .str "x"), ("targetLanguages", .arr [.str "es"])]) =
      (⟨200, healthBody⟩, stEmpty)) := by
  refine ⟨?_, ?_, ?_, ?_⟩
  · exact (C7_route_contract envServer (constTransport 200 (.ok healthBody)) stEmpty
      (Json.obj [])).1 (by rfl)
  · exact (C7_route_contract envServer (constTransport 200 (.ok healthBody)) stEmpty
      (Json.obj [("text", .str "x")])).2.1 (by rfl) (Or.inl (by rfl))
  · exact ((C7_route_contract envServer (constTransport 500 (.ok (Json.obj []))) stEmpty
      (Json.obj [("text", .str "x"), ("targetLanguages", .arr [.str "es"])])).2.2
      (by rfl) (by rfl) (by rfl)).1 "API error: 500" _ stEmpty (by rfl)
  · exact ((C7_route_contract envServer (constTransport 200 (.ok healthBody)) stEmpty
      (Json.obj [("text", .str "x"), ("targetLanguages", .arr [.str "es"])])).2.2
      (by rfl) (by rfl) (by rfl)).2 healthBody _ stEmpty (by rfl)

/-!
## Claim C8
-/

/-- C8: with `sourceLanguage`, `preservePlaceholders` and
`enablePluralization` unspecified, a valid `translate` call sends a body
whose `sourceLanguage` is `"en"` and whose two flags are `true`. -/
theorem C8_translate_defaults (env : Env) (T : Transport) (st : ClientState)
    (args : Json)
    (hkey : falsyApiKey (getConfig env st).apiKey = false)
    (h1 : optTruthy (jsGet args "text") = true)
    (h2 : optTruthy (optChainLength (jsGet args "targetLanguages")) = true)
    (hsl : jsGet args "sourceLanguage" = none)
    (hpp : jsGet args "preservePlaceholders" = none)
    (hep : jsGet args "enablePluralization" = none) :
    ∃ req b, (translate env T st args).1.2 = [req] ∧ req.body = some b ∧
      jsGet b "sourceLanguage" = some (.str "en") ∧
      jsGet b "preservePlaceholders" = some (.bool true) ∧
      jsGet b "enablePluralization" = some (.bool true) := by
  obtain ⟨t, ht⟩ : ∃ t, jsGet args "text" = some t := by
    cases hx : jsGet args "text" with
    | none => rw [hx] at h1; simp [optTruthy] at h1
    | some t => exact ⟨t, rfl⟩
  obtain ⟨tl, htl⟩ : ∃ tl, jsGet args "targetLanguages" = some tl := by
    cases hx : jsGet args "targetLanguages" with
    | none => rw [hx] at h2; simp [optChainLength, optTruthy] at h2
    | some tl => exact ⟨tl, rfl⟩
  rw [ht] at h1
  rw [htl] at h2
  simp only [translate, ht, htl, h1, h2, Bool.not_true, Bool.false_eq_true, if_false,
    hsl, hpp, hep, Option.getD_none]
  refine ⟨_, _, apiRequest_trace env T st _ _ hkey, rfl, ?_, ?_, ?_⟩
  · simp [objOf, jsGet, List.lookup]
  · simp [objOf, jsGet, List.lookup]
  · simp [objOf, jsGet, List.lookup]

/-- C8 witness: the defaults theorem at `{text: "Hello",
targetLanguages: ["es"]}`. -/
theorem C8_translate_defaults_witness :
    ∃ req b, (translate envServer (constTransport 200 (.ok healthBody)) stEmpty
        (Json.obj [("text", .str "Hello"), ("targetLanguages", .arr [.str "es"])])).1.2 =
        [req] ∧ req.body = some b ∧
      jsGet b "sourceLanguage" = some (.str "en") ∧
      jsGet b "preservePlaceholders" = some (.bool true) ∧
      jsGet b "enablePluralization" = some (.bool true) :=
  C8_translate_defaults envServer (constTransport 200 (.ok healthBody)) stEmpty
    (Json.obj [("text", .str "Hello"), ("targetLanguages", .arr [.str "es"])])
    (by rfl) (by rfl) (by rfl) (by rfl) (by rfl) (by rfl)

/-!
## Claim C9
-/

/-- The operation `translate` never mutates the module state. -/
theorem translate_state (env : Env) (T : Transport) (st : ClientState) (args : Json) :
    (translate env T st args).2 = st := by
  simp only [translate]
  split
  · rfl
  · split
    · rfl
    · exact apiRequest_state env T st _ _

/-- The operation `translateJSON` never mutates the module state. -/
theorem translateJSON_state (env : Env) (T : Transport) (st : ClientState) (args : Json) :
    (translateJSON env T st args).2 = st := by
  simp only [translateJSON]
  exact apiRequest_state env T st _ _

/-- The operation `translateLocaleFile` never mutates the module state. -/
theorem translateLocaleFile_state (env : Env) (T : Transport) (st : ClientState)
    (args : Json) : (translateLocaleFile env T st args).2 = st := by
  simp only [translateLocaleFile]
  have hstate := translateJSON_state env T st (objOf
    [("json", jsGet args "content"),
     ("sourceLanguage", some ((jsGet args "sourceLanguage").getD (.str "en"))),
     ("targetLanguages", jsGet args "targetLanguages"),
     ("preservePlaceholders", some ((jsGet args "preservePlaceholders").getD (.bool true))),
     ("enablePluralization", some ((jsGet args "enablePluralization").getD (.bool true)))])
  rcases hinner : translateJSON env T st (objOf
    [("json", jsGet args "content"),
     ("sourceLanguage", some ((jsGet args "sourceLanguage").getD (.str "en"))),
     ("targetLanguages", jsGet args "targetLanguages"),
     ("preservePlaceholders", some ((jsGet args "preservePlaceholders").getD (.bool true))),
     ("enablePluralization", some ((jsGet args "enablePluralization").getD (.bool true)))])
    with ⟨⟨res, tr⟩, st'⟩
  rw [hinner] at hstate
  cases res with
  | error e => exact hstate
  | ok result =>
    cases hbind : (jsGet args "targetLanguages").bind jsIterate with
    | none => exact hstate
    | some langs => exact hstate

/-- C9: `translate`, `translateJSON` and `translateLocaleFile` leave the
module state (the `testConfig` override) unchanged; therefore a second
identical call with the resulting state produces the identical output;
and the override is written only by `setConfig`/`resetConfig`, whose
effect is exactly replacement/clearing. -/
theorem C9_deterministic_stateless (env : Env) (T : Transport) (st : ClientState)
    (args : Json) (c : Config) :
    (translate env T st args).2 = st ∧
    (translateJSON env T st args).2 = st ∧
    (translateLocaleFile env T st args).2 = st ∧
    (translate env T (translate env T st args).2 args).1 =
      (translate env T st args).1 ∧
    (translateJSON env T (translateJSON env T st args).2 args).1 =
      (translateJSON env T st args).1 ∧
    (translateLocaleFile env T (translateLocaleFile env T st args).2 args).1 =
      (translateLocaleFile env T st args).1 ∧
    setConfig c st = { testConfig := some c } ∧
    resetConfig st = { testConfig := none } := by
  refine ⟨translate_state env T st args, translateJSON_state env T st args,
    translateLocaleFile_state env T st args, ?_, ?_, ?_, rfl, rfl⟩
  · rw [translate_state env T st args]
  · rw [translateJSON_state env T st args]
  · rw [translateLocaleFile_state env T st args]

end Shipi18n
